import Mathlib

/-!
Shallow embedding of the Trinity Incident-Identity Engine core
(src/core/incident_entity.py, src/core/validator.py,
src/core/meaning_overlay.py, src/core/snapshot.py) and proofs of the
specification claims about it.

Python conventions used throughout the embedding:
- a raised exception becomes an Except.error carrying a PyError;
- the free-form Dict[str, Any] fields (context, metadata) are modelled
  opaquely as association lists of strings, they are only ever passed
  through unchanged by the code under verification;
- Python string operations (lower, substring membership, lexicographic
  comparison) are modelled character-by-character on List Char.
-/

/-- Python exception classes that the embedded code can raise. -/
inductive PyError where
  | valueError (msg : String)
  | attributeError (msg : String)
deriving DecidableEq, Repr

/-- Opaque model of the free-form Dict[str, Any] fields; the core code
never inspects these, it only stores and serializes them. -/
abbrev PyDict := List (String × String)

instance {ε α : Type} [DecidableEq ε] [DecidableEq α] : DecidableEq (Except ε α) :=
  fun x y =>
    match x, y with
    | .ok a, .ok b =>
      if h : a = b then isTrue (by rw [h]) else isFalse (fun hc => h (Except.ok.inj hc))
    | .error a, .error b =>
      if h : a = b then isTrue (by rw [h]) else isFalse (fun hc => h (Except.error.inj hc))
    | .ok _, .error _ => isFalse (fun hc => Except.noConfusion hc)
    | .error _, .ok _ => isFalse (fun hc => Except.noConfusion hc)

/-- Boolean test that the first list is a prefix of the second. -/
def isPfx : List Char → List Char → Bool
  | [], _ => true
  | _ :: _, [] => false
  | a :: as, b :: bs => a == b && isPfx as bs

/-- Boolean test that the first list occurs as a contiguous sublist of
the second; this models the Python substring operator on strings. -/
def containsSub (p : List Char) : List Char → Bool
  | [] => isPfx p []
  | c :: rest => isPfx p (c :: rest) || containsSub p rest

/-- Python expression pat in s, substring containment. -/
def pyIn (pat s : String) : Bool := containsSub pat.data s.data

/-- Python str.lower, modelled with the ASCII case map. -/
def pyLower (s : String) : String := String.mk (s.data.map Char.toLower)

/-- Code-point comparison of two characters, as Python compares the
characters of a string. -/
def charLt (a b : Char) : Bool := decide (a.toNat < b.toNat)

/-- Code-point equality of two characters; code points determine
characters, so this is character equality. -/
def charEq (a b : Char) : Bool := decide (a.toNat = b.toNat)

/-- Strict lexicographic order on character lists; models the Python
string operator for strictly-less-than. -/
def listLt : List Char → List Char → Bool
  | [], [] => false
  | [], _ :: _ => true
  | _ :: _, [] => false
  | a :: as, b :: bs => charLt a b || (charEq a b && listLt as bs)

/-- Python strict string comparison a < b. -/
def pyStrLt (a b : String) : Bool := listLt a.data b.data

/-- Python string comparison a <= b, the negation of b < a under the
totality of the lexicographic order. -/
def pyStrLe (a b : String) : Bool := !(pyStrLt b a)

/-- Enumeration of incident types, from class IncidentType. -/
inductive IncidentType where
  | observation
  | interaction
  | state_change
  | communication
  | system_event
  | other
deriving DecidableEq, Repr

/-- The value attribute of each IncidentType enum member. -/
def IncidentType.value : IncidentType → String
  | .observation => "observation"
  | .interaction => "interaction"
  | .state_change => "state_change"
  | .communication => "communication"
  | .system_event => "system_event"
  | .other => "other"

/-- The Incident dataclass fields, from class Incident. -/
structure Incident where
  incident_id : String
  date : String
  system : String
  incident_type : IncidentType
  participants : List String
  facts : List String
  context : PyDict
  summary : String
  outcome : String
  metadata : PyDict
deriving DecidableEq, Repr

/-- The forbidden phrase list from Incident.post_init. -/
def forbidden_phrases : List String :=
  ["should", "will", "must", "predict", "optimize",
   "best", "worst", "good", "bad", "right", "wrong",
   "destiny", "fate", "meant to", "supposed to"]

/-- First forbidden phrase, in list order, occurring in the lowercased
fact; models the inner loop of the fact validation in
Incident.post_init. -/
def firstForbiddenPhrase (fact : String) : Option String :=
  forbidden_phrases.find? (fun p => pyIn p (pyLower fact))

/-- First (phrase, fact) pair that the fact-validation loop of
Incident.post_init rejects, scanning facts in order. -/
def factsCheck : List String → Option (String × String)
  | [] => none
  | f :: fs =>
    match firstForbiddenPhrase f with
    | some p => some (p, f)
    | none => factsCheck fs

/-- Incident construction: the dataclass constructor followed by
Incident.post_init validation. Empty required fields and facts
containing a forbidden phrase raise ValueError, in the source order of
the checks. -/
def mkIncident (incident_id date system : String) (incident_type : IncidentType)
    (participants facts : List String) (context : PyDict)
    (summary outcome : String) (metadata : PyDict) : Except PyError Incident :=
  if incident_id = "" then .error (.valueError "incident_id cannot be empty")
  else if date = "" then .error (.valueError "date cannot be empty")
  else if system = "" then .error (.valueError "system cannot be empty")
  else if participants = [] then .error (.valueError "participants cannot be empty")
  else if facts = [] then .error (.valueError "facts cannot be empty")
  else
    match factsCheck facts with
    | some (p, f) =>
      .error (.valueError ("Fact contains prescriptive language " ++ p ++ ": " ++ f))
    | none =>
      .ok ⟨incident_id, date, system, incident_type, participants, facts,
           context, summary, outcome, metadata⟩

/-- Serialized form of an Incident, from Incident.to_dict: a dictionary
with these ten keys, incident_type stored as its string value. -/
structure IncidentDict where
  incident_id : String
  date : String
  system : String
  incident_type : String
  participants : List String
  facts : List String
  context : PyDict
  summary : String
  outcome : String
  metadata : PyDict
deriving DecidableEq, Repr

/-- Incident.to_dict. -/
def Incident.to_dict (i : Incident) : IncidentDict :=
  ⟨i.incident_id, i.date, i.system, i.incident_type.value, i.participants,
   i.facts, i.context, i.summary, i.outcome, i.metadata⟩

/-- The enum lookup IncidentType(value); raises ValueError on a string
that is not the value of any member. -/
def parseIncidentType (s : String) : Except PyError IncidentType :=
  if s = "observation" then .ok .observation
  else if s = "interaction" then .ok .interaction
  else if s = "state_change" then .ok .state_change
  else if s = "communication" then .ok .communication
  else if s = "system_event" then .ok .system_event
  else if s = "other" then .ok .other
  else .error (.valueError (s ++ " is not a valid IncidentType"))

/-- Incident.from_dict: the enum lookup on the incident_type value runs
first, then the Incident constructor (hence post_init validation). -/
def Incident.from_dict (d : IncidentDict) : Except PyError Incident :=
  match parseIncidentType d.incident_type with
  | .error e => .error e
  | .ok t =>
    mkIncident d.incident_id d.date d.system t d.participants d.facts
      d.context d.summary d.outcome d.metadata

/-- The EntityIdentity dataclass, from class EntityIdentity. -/
structure EntityIdentity where
  entity_id : String
  incidents : List Incident
deriving DecidableEq, Repr

/-- Python attribute lookup incident.entity_id inside
EntityIdentity.add_incident: the Incident dataclass defines no such
attribute, so the lookup raises AttributeError. -/
def Incident.getattr_entity_id (_ : Incident) : Except PyError String :=
  .error (.attributeError "Incident object has no attribute entity_id")

/-- EntityIdentity.add_incident as written in the source: it reads
incident.entity_id (not self.entity_id), tests membership in
incident.participants, and otherwise appends. Because the attribute
read raises, the later steps are dead code. -/
def EntityIdentity.add_incident (e : EntityIdentity) (i : Incident) :
    Except PyError EntityIdentity := do
  let eid ← i.getattr_entity_id
  if eid ∈ i.participants then
    .ok { e with incidents := e.incidents ++ [i] }
  else
    .error (.valueError ("Incident does not involve entity " ++ e.entity_id))

/-- Python min(incidents, key=date) over a nonempty list: the first
element whose date is strictly below the current minimum replaces it,
so the first element attaining the minimum wins. -/
def pyMinKeyDate (x : Incident) (xs : List Incident) : Incident :=
  xs.foldl (fun acc i => if pyStrLt i.date acc.date then i else acc) x

/-- Python max(incidents, key=date) over a nonempty list: the first
element attaining the maximum wins. -/
def pyMaxKeyDate (x : Incident) (xs : List Incident) : Incident :=
  xs.foldl (fun acc i => if pyStrLt acc.date i.date then i else acc) x

/-- EntityIdentity.get_first_incident. -/
def EntityIdentity.get_first_incident (e : EntityIdentity) : Option Incident :=
  match e.incidents with
  | [] => none
  | x :: xs => some (pyMinKeyDate x xs)

/-- EntityIdentity.get_last_incident. -/
def EntityIdentity.get_last_incident (e : EntityIdentity) : Option Incident :=
  match e.incidents with
  | [] => none
  | x :: xs => some (pyMaxKeyDate x xs)

/-- Keep the first occurrence of every element; deterministic stand-in
for the Python list(set(...)) projections, whose order the spec leaves
unspecified. -/
def dedupFirstAux (seen : List String) : List String → List String
  | [] => []
  | x :: xs =>
    if seen.contains x then dedupFirstAux seen xs
    else x :: dedupFirstAux (x :: seen) xs

/-- Deterministic first-occurrence deduplication, entry point. -/
def dedupFirst (l : List String) : List String := dedupFirstAux [] l

/-- EntityIdentity.get_systems. -/
def EntityIdentity.get_systems (e : EntityIdentity) : List String :=
  dedupFirst (e.incidents.map (fun i => i.system))

/-- EntityIdentity.get_incident_types. -/
def EntityIdentity.get_incident_types (e : EntityIdentity) : List String :=
  dedupFirst (e.incidents.map (fun i => i.incident_type.value))

/-- EntityIdentity.get_co_participants. -/
def EntityIdentity.get_co_participants (e : EntityIdentity) : List String :=
  dedupFirst ((e.incidents.map (fun i => i.participants)).flatten.filter
    (fun p => !(p == e.entity_id)))

/-- EntityIdentity.get_incident_count. -/
def EntityIdentity.get_incident_count (e : EntityIdentity) : Nat :=
  e.incidents.length

/-- The IncidentLog ledger is a list of incidents; class IncidentLog. -/
structure IncidentLog where
  incidents : List Incident
deriving DecidableEq, Repr

/-- IncidentLog.append. -/
def IncidentLog.append (log : IncidentLog) (i : Incident) : IncidentLog :=
  ⟨log.incidents ++ [i]⟩

/-- IncidentLog.get_by_system. -/
def IncidentLog.get_by_system (log : IncidentLog) (system : String) : List Incident :=
  log.incidents.filter (fun i => i.system == system)

/-- IncidentLog.get_by_entity. -/
def IncidentLog.get_by_entity (log : IncidentLog) (entity_id : String) : List Incident :=
  log.incidents.filter (fun i => i.participants.contains entity_id)

/-- IncidentLog.get_by_date_range, inclusive lexicographic comparison. -/
def IncidentLog.get_by_date_range (log : IncidentLog) (start_date end_date : String) :
    List Incident :=
  log.incidents.filter (fun i => pyStrLe start_date i.date && pyStrLe i.date end_date)

/-- IncidentLog.get_count. -/
def IncidentLog.get_count (log : IncidentLog) : Nat :=
  log.incidents.length

/-- Python regex whitespace class, the characters matched by the
pattern element for one whitespace character on ASCII text. -/
def isSpaceCh (c : Char) : Bool :=
  c == ' ' || c == '\t' || c == '\n' || c == '\r' || c == '\x0b' || c == '\x0c'

/-- Python regex word-character class on lowercased ASCII text. -/
def isWordCh (c : Char) : Bool := c.isAlphanum || c == '_'

/-- One forbidden pattern of SafetyValidator.FORBIDDEN_PATTERNS. Every
pattern in that list has the shape: a word boundary, a literal word,
and optionally one-or-more whitespace followed by one of a list of
literal alternatives. src is the regex source text, used in error
messages. tail = none means the pattern ends after the word;
tail = some alts means whitespace then one alternative (the empty
alternative encodes a pattern ending in the whitespace element). -/
structure Pat where
  src : String
  word : String
  tail : Option (List String)
deriving DecidableEq, Repr

/-- Match the one-or-more-whitespace-then-alternative suffix of a
pattern against the text: at least one whitespace character, then some
alternative as a literal prefix of the remainder. -/
def spacesThen (alts : List String) : List Char → Bool
  | [] => false
  | c :: rest =>
    isSpaceCh c && (alts.any (fun a => isPfx a.data rest) || spacesThen alts rest)

/-- Match a pattern at the current position (the boundary test is done
by the caller): the word is a literal prefix here, then the tail. -/
def patAt (p : Pat) (s : List Char) : Bool :=
  isPfx p.word.data s &&
    (match p.tail with
     | none => true
     | some alts => spacesThen alts (s.drop p.word.data.length))

/-- Word-boundary test before the match position: start of string, or a
preceding non-word character (patterns all begin with a word char). -/
def boundaryOk : Option Char → Bool
  | none => true
  | some c => !isWordCh c

/-- re.search: try the pattern at every position, tracking the
preceding character for the word-boundary test. -/
def searchFrom (p : Pat) : Option Char → List Char → Bool
  | prev, [] => boundaryOk prev && patAt p []
  | prev, c :: rest =>
    (boundaryOk prev && patAt p (c :: rest)) || searchFrom p (some c) rest

/-- re.search of a pattern in a string, from the start. -/
def patSearch (p : Pat) (s : String) : Bool := searchFrom p none s.data

/-- SafetyValidator.FORBIDDEN_PATTERNS, in source order. -/
def FORBIDDEN_PATTERNS : List Pat :=
  [⟨"\\bwill\\s+(do|be|happen|occur)", "will", some ["do", "be", "happen", "occur"]⟩,
   ⟨"\\bshould\\s+(do|be)", "should", some ["do", "be"]⟩,
   ⟨"\\bmust\\s+(do|be)", "must", some ["do", "be"]⟩,
   ⟨"\\bpredict", "predict", none⟩,
   ⟨"\\boptimize", "optimize", none⟩,
   ⟨"\\brecommend", "recommend", none⟩,
   ⟨"\\bshould\\s+", "should", some [""]⟩,
   ⟨"\\bwill\\s+", "will", some [""]⟩,
   ⟨"\\bdestiny", "destiny", none⟩,
   ⟨"\\bfate", "fate", none⟩,
   ⟨"\\bmeant\\s+to", "meant", some ["to"]⟩,
   ⟨"\\bsupposed\\s+to", "supposed", some ["to"]⟩,
   ⟨"\\bwill\\s+happen", "will", some ["happen"]⟩,
   ⟨"\\bwill\\s+occur", "will", some ["occur"]⟩,
   ⟨"\\bwill\\s+be", "will", some ["be"]⟩,
   ⟨"\\bwill\\s+do", "will", some ["do"]⟩,
   ⟨"\\bshould\\s+happen", "should", some ["happen"]⟩,
   ⟨"\\bshould\\s+occur", "should", some ["occur"]⟩,
   ⟨"\\bshould\\s+be", "should", some ["be"]⟩,
   ⟨"\\bshould\\s+do", "should", some ["do"]⟩,
   ⟨"\\bmust\\s+happen", "must", some ["happen"]⟩,
   ⟨"\\bmust\\s+occur", "must", some ["occur"]⟩,
   ⟨"\\bmust\\s+be", "must", some ["be"]⟩,
   ⟨"\\bmust\\s+do", "must", some ["do"]⟩]

/-- SafetyValidator.validate_fact: lowercase the fact, scan the
pattern list in order, report the first match, else (True, empty). -/
def validate_fact (fact : String) : Bool × String :=
  match FORBIDDEN_PATTERNS.find? (fun p => patSearch p (pyLower fact)) with
  | some p => (false, "Fact contains forbidden pattern: " ++ p.src)
  | none => (true, "")

/-- Enumeration of meaning sources, from class MeaningSource. -/
inductive MeaningSource where
  | etymology
  | cultural_usage
  | geographic_context
  | narrative_role
  | technical_definition
  | historical_context
deriving DecidableEq, Repr

/-- The MeaningEntry dataclass fields, from class MeaningEntry. -/
structure MeaningEntry where
  term : String
  source : MeaningSource
  definition : String
  usage_examples : List String
  context : PyDict
  constraints : List String
  related_terms : List String
deriving DecidableEq, Repr

/-- The forbidden phrase list from MeaningEntry.post_init; note it is
a different list from the Incident fact list forbidden_phrases. -/
def meaning_forbidden_phrases : List String :=
  ["should", "must", "will", "predict", "optimize",
   "must do", "will do", "should be", "ought to"]

/-- MeaningEntry construction: the dataclass constructor followed by
MeaningEntry.post_init validation (nonempty term and definition, then
the forbidden-phrase scan over the lowercased definition, in phrase
list order). -/
def mkMeaningEntry (term : String) (source : MeaningSource) (definition : String)
    (usage_examples : List String) (context : PyDict)
    (constraints : List String) (related_terms : List String) :
    Except PyError MeaningEntry :=
  if term = "" then .error (.valueError "term cannot be empty")
  else if definition = "" then .error (.valueError "definition cannot be empty")
  else
    match meaning_forbidden_phrases.find? (fun p => pyIn p (pyLower definition)) with
    | some p =>
      .error (.valueError ("Definition contains prescriptive language: " ++ p))
    | none =>
      .ok ⟨term, source, definition, usage_examples, context, constraints, related_terms⟩

/-- The MeaningLayer dataclass: a source tag and a term-keyed
dictionary of entries, modelled as an insertion-ordered association
list with unique keys. -/
structure MeaningLayer where
  source : MeaningSource
  entries : List (String × MeaningEntry)

/-- Python dictionary assignment entries[term] = entry: replace in
place when the key exists, append otherwise. -/
def dictInsert (k : String) (v : MeaningEntry) :
    List (String × MeaningEntry) → List (String × MeaningEntry)
  | [] => [(k, v)]
  | (k0, v0) :: rest =>
    if k0 = k then (k0, v) :: rest else (k0, v0) :: dictInsert k v rest

/-- MeaningLayer.add_entry, with the defensive source check. -/
def MeaningLayer.add_entry (l : MeaningLayer) (e : MeaningEntry) :
    Except PyError MeaningLayer :=
  if e.source ≠ l.source then
    .error (.valueError "Entry source does not match layer source")
  else
    .ok { l with entries := dictInsert e.term e l.entries }

/-- MeaningLayer.get_entry. -/
def MeaningLayer.get_entry (l : MeaningLayer) (term : String) : Option MeaningEntry :=
  (l.entries.find? (fun kv => kv.1 == term)).map (fun kv => kv.2)

/-- The MeaningOverlay layers dictionary: MeaningOverlay.init builds
exactly one layer per MeaningSource, keyed by that source, so the
dictionary is total and is modelled as a function. -/
structure MeaningOverlay where
  layers : MeaningSource → MeaningLayer

/-- MeaningOverlay.init: one empty layer per source, keyed by it. -/
def initOverlay : MeaningOverlay := ⟨fun s => ⟨s, []⟩⟩

/-- MeaningOverlay.add_meaning: route the entry to the layer keyed by
entry.source and delegate to MeaningLayer.add_entry; the in-place
mutation of that layer becomes a functional update. -/
def MeaningOverlay.add_meaning (o : MeaningOverlay) (e : MeaningEntry) :
    Except PyError MeaningOverlay :=
  match (o.layers e.source).add_entry e with
  | .error err => .error err
  | .ok l => .ok ⟨fun s => if s = e.source then l else o.layers s⟩

/-- The layers invariant established by MeaningOverlay.init: every
layer is keyed by its own source field. -/
def WFOverlay (o : MeaningOverlay) : Prop :=
  ∀ s, (o.layers s).source = s

/-- The overlay state MeaningOverlay.add_meaning produces on success:
the target layer with the entry inserted at key entry.term. -/
def overlayInsert (o : MeaningOverlay) (e : MeaningEntry) : MeaningOverlay :=
  ⟨fun s =>
    if s = e.source then
      { o.layers e.source with entries := dictInsert e.term e (o.layers e.source).entries }
    else o.layers s⟩

/-- The IdentitySnapshot dataclass fields. -/
structure IdentitySnapshot where
  entity_id : String
  snapshot_date : String
  incident_count : Nat
  first_seen : Option String
  last_seen : Option String
  systems : List String
  incident_types : List String
  co_participants : List String
  metadata : PyDict
deriving DecidableEq, Repr

/-- The TimelineSnapshot dataclass fields. -/
structure TimelineSnapshot where
  entity_id : String
  snapshot_date : String
  incidents_chronological : List IncidentDict
deriving DecidableEq, Repr

/-- One value of the per-entity aggregate dictionary built by
SnapshotGenerator.create_system_snapshot. -/
structure EntitySummary where
  entity_id : String
  incident_count : Nat
  first_seen : String
  last_seen : String
deriving DecidableEq, Repr

/-- The SystemSnapshot dataclass fields; the entity dictionary is an
insertion-ordered association list with unique keys. -/
structure SystemSnapshot where
  system : String
  snapshot_date : String
  entities : List EntitySummary
  incident_count : Nat
deriving DecidableEq, Repr

/-- The dictionary returned by create_relationship_snapshot. -/
structure RelationshipSnapshot where
  entity1 : String
  entity2 : String
  snapshot_date : String
  shared_incidents : List IncidentDict
  interaction_count : Nat
deriving DecidableEq, Repr

/-- The dictionary returned by create_temporal_snapshot. -/
structure TemporalSnapshot where
  start_date : String
  end_date : String
  snapshot_date : String
  incident_count : Nat
  systems_involved : List String
  entities_involved : List String
  incidents : List IncidentDict
deriving DecidableEq, Repr

/-- Mutable state of a SnapshotGenerator: the incident log it reads
and the internal snapshots cache dictionary. The datetime.now()
timestamp is passed in explicitly by each operation. -/
structure GenState where
  incident_log : IncidentLog
  snapshots : List (String × IdentitySnapshot)

/-- SnapshotGenerator.init: the given log and an empty cache. -/
def initGen (log : IncidentLog) : GenState := ⟨log, []⟩

/-- SnapshotGenerator.create_identity_snapshot: builds the summary
from the entity and returns it; the source never writes the result
into self.snapshots, so the generator state is returned unchanged. -/
def create_identity_snapshot (g : GenState) (e : EntityIdentity) (now : String) :
    IdentitySnapshot × GenState :=
  (⟨e.entity_id, now, e.get_incident_count,
    (e.get_first_incident).map (fun i => i.date),
    (e.get_last_incident).map (fun i => i.date),
    e.get_systems, e.get_incident_types, e.get_co_participants,
    [("note", "This snapshot is a view, not authoritative. It can be regenerated or deleted.")]⟩,
   g)

/-- Python sorted(incidents, key=date): stable insertion into a sorted
list, an element goes after every earlier element with date at most
its own. -/
def insertByDate (i : Incident) : List Incident → List Incident
  | [] => [i]
  | j :: rest =>
    if pyStrLe j.date i.date then j :: insertByDate i rest else i :: j :: rest

/-- Stable sort by date (models Python sorted with the date key). -/
def sortedByDate : List Incident → List Incident
  | [] => []
  | i :: rest => insertByDate i (sortedByDate rest)

/-- SnapshotGenerator.create_timeline_snapshot; state unchanged. -/
def create_timeline_snapshot (g : GenState) (e : EntityIdentity) (now : String) :
    TimelineSnapshot × GenState :=
  (⟨e.entity_id, now, (sortedByDate e.incidents).map Incident.to_dict⟩, g)

/-- One inner-loop step of create_system_snapshot: the Python code
inserts a fresh summary with count 0 and first_seen = last_seen = the
incident date when the key is absent, then unconditionally increments
the count and overwrites last_seen. -/
def addParticipant (eid d : String) : List EntitySummary → List EntitySummary
  | [] => [⟨eid, 1, d, d⟩]
  | s :: rest =>
    if s.entity_id = eid then
      { s with incident_count := s.incident_count + 1, last_seen := d } :: rest
    else
      s :: addParticipant eid d rest

/-- SnapshotGenerator.create_system_snapshot: filter the ledger by
system, fold the participant aggregation over the incidents in ledger
order; state unchanged. -/
def create_system_snapshot (g : GenState) (system now : String) :
    SystemSnapshot × GenState :=
  let incs := g.incident_log.get_by_system system
  (⟨system, now,
    incs.foldl (fun m i => i.participants.foldl (fun m2 eid => addParticipant eid i.date m2) m) [],
    incs.length⟩,
   g)

/-- SnapshotGenerator.create_relationship_snapshot; state unchanged. -/
def create_relationship_snapshot (g : GenState) (entity1_id entity2_id now : String) :
    RelationshipSnapshot × GenState :=
  let shared := g.incident_log.incidents.filter
    (fun i => i.participants.contains entity1_id && i.participants.contains entity2_id)
  (⟨entity1_id, entity2_id, now, shared.map Incident.to_dict, shared.length⟩, g)

/-- SnapshotGenerator.create_temporal_snapshot; state unchanged. -/
def create_temporal_snapshot (g : GenState) (start_date end_date now : String) :
    TemporalSnapshot × GenState :=
  let incs := g.incident_log.get_by_date_range start_date end_date
  (⟨start_date, end_date, now, incs.length,
    dedupFirst (incs.map (fun i => i.system)),
    dedupFirst ((incs.map (fun i => i.participants)).flatten),
    incs.map Incident.to_dict⟩,
   g)

/-- SnapshotGenerator.delete_snapshot: remove the cache entry for the
key when present; nothing else in the state is touched. -/
def delete_snapshot (g : GenState) (entity_id : String) : GenState :=
  { g with snapshots := g.snapshots.filter (fun kv => !(kv.1 == entity_id)) }

/-- SnapshotGenerator.regenerate_all_snapshots: clear the cache. -/
def regenerate_all_snapshots (g : GenState) : GenState :=
  { g with snapshots := [] }

/-- One call a caller can make on a SnapshotGenerator. -/
inductive GenOp where
  | createIdentity (e : EntityIdentity) (now : String)
  | createTimeline (e : EntityIdentity) (now : String)
  | createSystem (system now : String)
  | createRelationship (a b now : String)
  | createTemporal (start_date end_date now : String)
  | deleteSnap (entity_id : String)
  | regenerateAll

/-- State transition of one SnapshotGenerator call. -/
def GenState.step (g : GenState) : GenOp → GenState
  | .createIdentity e now => (create_identity_snapshot g e now).2
  | .createTimeline e now => (create_timeline_snapshot g e now).2
  | .createSystem s now => (create_system_snapshot g s now).2
  | .createRelationship a b now => (create_relationship_snapshot g a b now).2
  | .createTemporal s e now => (create_temporal_snapshot g s e now).2
  | .deleteSnap eid => delete_snapshot g eid
  | .regenerateAll => regenerate_all_snapshots g

/-- Run a sequence of SnapshotGenerator calls from a state. -/
def GenState.run (g : GenState) (ops : List GenOp) : GenState :=
  ops.foldl GenState.step g

/-- A representative validly constructed incident, used as concrete
input in witnesses. -/
def sampleIncident : Incident :=
  ⟨"i1", "2024-01-01", "sysA", .observation, ["x"],
   ["the sky appeared blue"], [], "", "", []⟩

/-- An entity identity for entity x with no incidents yet. -/
def entX : EntityIdentity := ⟨"x", []⟩

/-- January incident for the three-incident ordering example. -/
def janInc : Incident :=
  ⟨"jan", "2024-01-01", "sysA", .observation, ["x"],
   ["the meeting occurred"], [], "", "", []⟩

/-- March incident for the three-incident ordering example. -/
def marInc : Incident :=
  ⟨"mar", "2024-03-01", "sysA", .observation, ["x"],
   ["the report arrived"], [], "", "", []⟩

/-- February incident for the three-incident ordering example. -/
def febInc : Incident :=
  ⟨"feb", "2024-02-01", "sysA", .observation, ["x"],
   ["the call ended"], [], "", "", []⟩

/-- First incident of the system-snapshot ledger-order example:
system A, participant x, date 2024-01-02, appended first. -/
def exA1 : Incident :=
  ⟨"a1", "2024-01-02", "A", .other, ["x"],
   ["the sensor reported a value"], [], "", "", []⟩

/-- Second incident of the system-snapshot ledger-order example:
system A, participant x, date 2024-01-01, appended second. -/
def exA2 : Incident :=
  ⟨"a2", "2024-01-01", "A", .other, ["x"],
   ["the sensor reported a value"], [], "", "", []⟩

/-- A representative valid meaning entry, used in witnesses. -/
def sampleEntry : MeaningEntry :=
  ⟨"term1", .etymology, "origin description", [], [], [], []⟩

/-- Acceptance of a string as the single fact of an otherwise valid
incident; the fixed surrounding fields pass every other check. -/
def acceptsAsFact (s : String) : Bool :=
  (mkIncident "i1" "2024-01-01" "sysA" .observation ["x"] [s] [] "" "" []).isOk

/-- Acceptance of a string as the definition of an otherwise valid
meaning entry; the fixed surrounding fields pass every other check. -/
def acceptsAsDefinition (s : String) : Bool :=
  (mkMeaningEntry "term1" .etymology s [] [] [] []).isOk

/-! Helper lemmas. -/

theorem step_incident_log (g : GenState) (op : GenOp) :
    (g.step op).incident_log = g.incident_log := by
  cases op <;> rfl

theorem step_snapshots_of_empty (g : GenState) (op : GenOp) (h : g.snapshots = []) :
    (g.step op).snapshots = [] := by
  cases op <;>
    simp [GenState.step, create_identity_snapshot, create_timeline_snapshot,
      create_system_snapshot, create_relationship_snapshot, create_temporal_snapshot,
      delete_snapshot, regenerate_all_snapshots, h]

theorem run_incident_log (ops : List GenOp) :
    ∀ g : GenState, (g.run ops).incident_log = g.incident_log := by
  induction ops with
  | nil => intro g; rfl
  | cons op ops ih =>
    intro g
    show ((g.step op).run ops).incident_log = g.incident_log
    rw [ih (g.step op), step_incident_log]

theorem run_snapshots_empty (ops : List GenOp) :
    ∀ g : GenState, g.snapshots = [] → (g.run ops).snapshots = [] := by
  induction ops with
  | nil => intro g h; exact h
  | cons op ops ih =>
    intro g h
    exact ih (g.step op) (step_snapshots_of_empty g op h)

/-! Claim theorems. -/

/-- C1: the claim states that EntityIdentity.add_incident rejects an
incident whose participants do not include the entity id and appends
the incident otherwise. The code instead reads incident.entity_id, an
attribute the Incident dataclass does not define, so every call raises
AttributeError: even at the failing input below, where the entity id x
is a participant and the claim requires a successful append. -/
theorem C1_add_incident_always_raises :
    (∀ (e : EntityIdentity) (i : Incident),
      e.add_incident i =
        Except.error (PyError.attributeError "Incident object has no attribute entity_id")) ∧
    "x" ∈ sampleIncident.participants ∧
    entX.add_incident sampleIncident =
      Except.error (PyError.attributeError "Incident object has no attribute entity_id") := by
  refine ⟨fun e i => rfl, by decide, rfl⟩

/-- C7: delete_snapshot removes at most an entry of the internal
cache and has no effect on the incident store: for every generator
state, creating an identity snapshot and then deleting leaves the
ledger contents and get_count unchanged, and delete only filters the
cache. -/
theorem C7_delete_snapshot_frame (g : GenState) (e : EntityIdentity) (now eid : String) :
    (delete_snapshot (create_identity_snapshot g e now).2 eid).incident_log = g.incident_log ∧
    (delete_snapshot (create_identity_snapshot g e now).2 eid).incident_log.get_count
      = g.incident_log.get_count ∧
    (delete_snapshot g eid).incident_log = g.incident_log ∧
    (delete_snapshot g eid).snapshots.Sublist g.snapshots := by
  exact ⟨rfl, rfl, rfl, List.filter_sublist _⟩

/-- C9: no SnapshotGenerator operation populates the internal cache:
after any sequence of create, delete and regenerate calls from a
freshly initialized generator, the cache is empty, the ledger is
untouched, delete_snapshot is the identity on the resulting state, and
regenerate_all_snapshots clears an already-empty map. -/
theorem C9_cache_never_populated (log : IncidentLog) (ops : List GenOp) :
    ((initGen log).run ops).snapshots = [] ∧
    ((initGen log).run ops).incident_log = log ∧
    (∀ eid, delete_snapshot ((initGen log).run ops) eid = (initGen log).run ops) ∧
    regenerate_all_snapshots ((initGen log).run ops) = (initGen log).run ops := by
  have hs : ((initGen log).run ops).snapshots = [] :=
    run_snapshots_empty ops (initGen log) rfl
  refine ⟨hs, run_incident_log ops (initGen log), ?_, ?_⟩
  · intro eid
    cases hg : (initGen log).run ops with
    | mk l s =>
      rw [hg] at hs
      simp at hs
      simp [delete_snapshot, hs]
  · cases hg : (initGen log).run ops with
    | mk l s =>
      rw [hg] at hs
      simp at hs
      simp [regenerate_all_snapshots, hs]

theorem factsCheck_eq_none_iff (fs : List String) :
    factsCheck fs = none ↔ ∀ f ∈ fs, firstForbiddenPhrase f = none := by
  induction fs with
  | nil => simp [factsCheck]
  | cons f fs ih =>
    cases h : firstForbiddenPhrase f with
    | some p => simp [factsCheck, h]
    | none => simp [factsCheck, h, ih]

theorem firstForbiddenPhrase_eq_none_iff (f : String) :
    firstForbiddenPhrase f = none ↔ ∀ p ∈ forbidden_phrases, pyIn p (pyLower f) = false := by
  unfold firstForbiddenPhrase
  rw [List.find?_eq_none]
  simp

theorem mkIncident_ok_iff (iid d sys : String) (t : IncidentType)
    (ps fs : List String) (cx : PyDict) (sm oc : String) (md : PyDict) (i : Incident) :
    mkIncident iid d sys t ps fs cx sm oc md = Except.ok i ↔
      (iid ≠ "" ∧ d ≠ "" ∧ sys ≠ "" ∧ ps ≠ [] ∧ fs ≠ [] ∧ factsCheck fs = none ∧
       i = ⟨iid, d, sys, t, ps, fs, cx, sm, oc, md⟩) := by
  unfold mkIncident
  by_cases h1 : iid = ""
  · simp [h1]
  by_cases h2 : d = ""
  · simp [h1, h2]
  by_cases h3 : sys = ""
  · simp [h1, h2, h3]
  by_cases h4 : ps = []
  · simp [h1, h2, h3, h4]
  by_cases h5 : fs = []
  · simp [h1, h2, h3, h4, h5]
  cases hc : factsCheck fs with
  | some pf => simp [h1, h2, h3, h4, h5, hc]
  | none =>
    simp only [if_neg h1, if_neg h2, if_neg h3, if_neg h4, if_neg h5, hc]
    simp [h1, h2, h3, h4, h5, eq_comm]

theorem mkIncident_error_shape (iid d sys : String) (t : IncidentType)
    (ps fs : List String) (cx : PyDict) (sm oc : String) (md : PyDict) :
    (∃ i, mkIncident iid d sys t ps fs cx sm oc md = Except.ok i) ∨
    (∃ m, mkIncident iid d sys t ps fs cx sm oc md = Except.error (PyError.valueError m)) := by
  unfold mkIncident
  by_cases h1 : iid = ""
  · exact Or.inr ⟨"incident_id cannot be empty", by simp [h1]⟩
  by_cases h2 : d = ""
  · exact Or.inr ⟨"date cannot be empty", by simp [h1, h2]⟩
  by_cases h3 : sys = ""
  · exact Or.inr ⟨"system cannot be empty", by simp [h1, h2, h3]⟩
  by_cases h4 : ps = []
  · exact Or.inr ⟨"participants cannot be empty", by simp [h1, h2, h3, h4]⟩
  by_cases h5 : fs = []
  · exact Or.inr ⟨"facts cannot be empty", by simp [h1, h2, h3, h4, h5]⟩
  cases hc : factsCheck fs with
  | some pf =>
    exact Or.inr ⟨"Fact contains prescriptive language " ++ pf.1 ++ ": " ++ pf.2,
      by simp [if_neg h1, if_neg h2, if_neg h3, if_neg h4, if_neg h5, hc]⟩
  | none =>
    exact Or.inl ⟨⟨iid, d, sys, t, ps, fs, cx, sm, oc, md⟩,
      by simp [if_neg h1, if_neg h2, if_neg h3, if_neg h4, if_neg h5, hc]⟩

/-- C3: Incident construction fails with a ValueError whenever
incident_id, date, system, participants or facts is empty or some fact
contains a forbidden phrase, succeeds exactly on non-empty required
fields with forbidden-phrase-free facts, and the constructed value is
precisely the record of the given fields (in this pure embedding no
operation can alter it afterwards). -/
theorem C3_incident_construction (iid d sys : String) (t : IncidentType)
    (ps fs : List String) (cx : PyDict) (sm oc : String) (md : PyDict) :
    ((∃ i, mkIncident iid d sys t ps fs cx sm oc md = Except.ok i) ∨
     (∃ m, mkIncident iid d sys t ps fs cx sm oc md = Except.error (PyError.valueError m))) ∧
    (mkIncident iid d sys t ps fs cx sm oc md =
        Except.ok ⟨iid, d, sys, t, ps, fs, cx, sm, oc, md⟩ ↔
      (iid ≠ "" ∧ d ≠ "" ∧ sys ≠ "" ∧ ps ≠ [] ∧ fs ≠ [] ∧
       ∀ f ∈ fs, ∀ p ∈ forbidden_phrases, pyIn p (pyLower f) = false)) ∧
    (∀ i, mkIncident iid d sys t ps fs cx sm oc md = Except.ok i →
      i = ⟨iid, d, sys, t, ps, fs, cx, sm, oc, md⟩) := by
  refine ⟨mkIncident_error_shape iid d sys t ps fs cx sm oc md, ?_, ?_⟩
  · rw [mkIncident_ok_iff]
    constructor
    · rintro ⟨h1, h2, h3, h4, h5, hc, -⟩
      refine ⟨h1, h2, h3, h4, h5, ?_⟩
      intro f hf
      rw [← firstForbiddenPhrase_eq_none_iff]
      exact (factsCheck_eq_none_iff fs).mp hc f hf
    · rintro ⟨h1, h2, h3, h4, h5, hc⟩
      refine ⟨h1, h2, h3, h4, h5, ?_, rfl⟩
      rw [factsCheck_eq_none_iff]
      intro f hf
      rw [firstForbiddenPhrase_eq_none_iff]
      exact hc f hf
  · intro i hi
    exact ((mkIncident_ok_iff iid d sys t ps fs cx sm oc md i).mp hi).2.2.2.2.2.2

/-- Witness for C3 at concrete inputs: a fully clean construction
succeeds with exactly the given fields. -/
theorem C3_incident_construction_witness :
    mkIncident "i1" "2024-01-01" "sysA" .observation ["x"]
        ["the sky appeared blue"] [] "" "" [] =
      Except.ok ⟨"i1", "2024-01-01", "sysA", .observation, ["x"],
        ["the sky appeared blue"], [], "", "", []⟩ :=
  (C3_incident_construction "i1" "2024-01-01" "sysA" .observation ["x"]
    ["the sky appeared blue"] [] "" "" []).2.1.mpr (by decide)

theorem parseIncidentType_value (t : IncidentType) :
    parseIncidentType t.value = Except.ok t := by
  cases t <;> rfl

/-- C8: for every validly constructed Incident, from_dict after
to_dict succeeds and reproduces the incident with all ten fields
equal. -/
theorem C8_to_dict_from_dict_roundtrip (iid d sys : String) (t : IncidentType)
    (ps fs : List String) (cx : PyDict) (sm oc : String) (md : PyDict) (i : Incident)
    (h : mkIncident iid d sys t ps fs cx sm oc md = Except.ok i) :
    Incident.from_dict i.to_dict = Except.ok i := by
  rw [mkIncident_ok_iff] at h
  obtain ⟨h1, h2, h3, h4, h5, hc, rfl⟩ := h
  show Incident.from_dict (Incident.to_dict _) = _
  unfold Incident.to_dict Incident.from_dict
  simp only [parseIncidentType_value]
  rw [mkIncident_ok_iff]
  exact ⟨h1, h2, h3, h4, h5, hc, rfl⟩

/-- Witness for C8 at a concrete validly constructed incident. -/
theorem C8_to_dict_from_dict_roundtrip_witness :
    Incident.from_dict sampleIncident.to_dict = Except.ok sampleIncident :=
  C8_to_dict_from_dict_roundtrip "i1" "2024-01-01" "sysA" .observation ["x"]
    ["the sky appeared blue"] [] "" "" [] sampleIncident (by decide)

theorem isPfx_trans (p : List Char) :
    ∀ q s, isPfx p q = true → isPfx q s = true → isPfx p s = true := by
  induction p with
  | nil => intro q s _ _; simp [isPfx]
  | cons a as ih =>
    intro q s hpq hqs
    cases q with
    | nil => simp [isPfx] at hpq
    | cons b bs =>
      cases s with
      | nil => simp [isPfx] at hqs
      | cons c cs =>
        simp [isPfx] at hpq hqs ⊢
        exact ⟨hpq.1.trans hqs.1, ih bs cs hpq.2 hqs.2⟩

theorem containsSub_mono (p q : List Char) (hpq : isPfx p q = true) :
    ∀ s, containsSub q s = true → containsSub p s = true := by
  intro s
  induction s with
  | nil =>
    intro h
    simp only [containsSub] at h ⊢
    exact isPfx_trans p q [] hpq h
  | cons c rest ih =>
    intro h
    simp only [containsSub, Bool.or_eq_true] at h ⊢
    rcases h with h | h
    · exact Or.inl (isPfx_trans p q (c :: rest) hpq h)
    · exact Or.inr (ih h)

theorem pyIn_mono (p q s : String) (hpq : isPfx p.data q.data = true)
    (h : pyIn q s = true) : pyIn p s = true :=
  containsSub_mono p.data q.data hpq s.data h

theorem acceptsAsFact_eq (s : String) :
    acceptsAsFact s = (firstForbiddenPhrase s).isNone := by
  unfold acceptsAsFact mkIncident
  rw [if_neg (by decide : ¬ ("i1" : String) = ""),
    if_neg (by decide : ¬ ("2024-01-01" : String) = ""),
    if_neg (by decide : ¬ ("sysA" : String) = ""),
    if_neg (by simp : ¬ (["x"] : List String) = []),
    if_neg (by simp : ¬ ([s] : List String) = [])]
  cases h : firstForbiddenPhrase s <;> simp [factsCheck, h, Except.isOk, Except.toBool]

theorem acceptsAsDefinition_eq (s : String) :
    acceptsAsDefinition s =
      (if s = "" then false
       else (meaning_forbidden_phrases.find? (fun p => pyIn p (pyLower s))).isNone) := by
  unfold acceptsAsDefinition mkMeaningEntry
  rw [if_neg (by decide : ¬ ("term1" : String) = "")]
  by_cases hs : s = ""
  · simp [hs, Except.isOk, Except.toBool]
  · cases h : meaning_forbidden_phrases.find? (fun p => pyIn p (pyLower s)) <;>
      simp [hs, h, Except.isOk, Except.toBool]

/-- C4 counterexample: the claim says a string is accepted as a
MeaningEntry definition exactly when it is accepted as an Incident
fact; the two constructors scan different phrase lists, and the input
best is accepted as a definition but rejected as a fact. -/
theorem C4_same_check_cex : ¬ (acceptsAsDefinition "best" = acceptsAsFact "best") := by
  decide

/-- C4 amended: both checks are case-insensitive substring scans but
over different phrase lists; for a string accepted as an Incident
fact, acceptance as a MeaningEntry definition is equivalent to being
non-empty and not containing the one extra phrase ought to, so the
claimed equivalence holds only up to those two provisos (and fails
outright, for example at the input best). -/
theorem C4_same_check_amended (s : String) (h : acceptsAsFact s = true) :
    acceptsAsDefinition s = true ↔ (s ≠ "" ∧ pyIn "ought to" (pyLower s) = false) := by
  rw [acceptsAsFact_eq] at h
  have hall : ∀ p ∈ forbidden_phrases, pyIn p (pyLower s) = false :=
    (firstForbiddenPhrase_eq_none_iff s).mp (Option.isNone_iff_eq_none.mp h)
  rw [acceptsAsDefinition_eq]
  by_cases hs : s = ""
  · simp [hs]
  · rw [if_neg hs]
    have hshould : pyIn "should" (pyLower s) = false := hall _ (by simp [forbidden_phrases])
    have hmust : pyIn "must" (pyLower s) = false := hall _ (by simp [forbidden_phrases])
    have hwill : pyIn "will" (pyLower s) = false := hall _ (by simp [forbidden_phrases])
    have hpredict : pyIn "predict" (pyLower s) = false := hall _ (by simp [forbidden_phrases])
    have hoptimize : pyIn "optimize" (pyLower s) = false := hall _ (by simp [forbidden_phrases])
    have hmustdo : pyIn "must do" (pyLower s) = false := by
      cases hmd : pyIn "must do" (pyLower s) with
      | false => rfl
      | true =>
        exact absurd (pyIn_mono "must" "must do" (pyLower s) (by decide) hmd) (by simp [hmust])
    have hwilldo : pyIn "will do" (pyLower s) = false := by
      cases hmd : pyIn "will do" (pyLower s) with
      | false => rfl
      | true =>
        exact absurd (pyIn_mono "will" "will do" (pyLower s) (by decide) hmd) (by simp [hwill])
    have hshouldbe : pyIn "should be" (pyLower s) = false := by
      cases hmd : pyIn "should be" (pyLower s) with
      | false => rfl
      | true =>
        exact absurd (pyIn_mono "should" "should be" (pyLower s) (by decide) hmd) (by simp [hshould])
    rw [Option.isNone_iff_eq_none, List.find?_eq_none]
    constructor
    · intro hfind
      refine ⟨hs, ?_⟩
      have := hfind "ought to" (by simp [meaning_forbidden_phrases])
      simpa using this
    · rintro ⟨-, hought⟩ p hp
      simp [meaning_forbidden_phrases] at hp
      rcases hp with rfl | rfl | rfl | rfl | rfl | rfl | rfl | rfl | rfl <;>
        simp [hshould, hmust, hwill, hpredict, hoptimize, hmustdo, hwilldo, hshouldbe, hought]

/-- Witness for C4 amended at a concrete clean string: accepted as a
fact, hence accepted as a definition by the amended equivalence. -/
theorem C4_same_check_amended_witness :
    acceptsAsDefinition "the sky appeared blue" = true :=
  (C4_same_check_amended "the sky appeared blue" (by decide)).mpr (by decide)

theorem listLt_irrefl : ∀ a : List Char, listLt a a = false := by
  intro a
  induction a with
  | nil => rfl
  | cons c cs ih => simp [listLt, charLt, charEq, ih]

theorem listLt_trans : ∀ a b c : List Char,
    listLt a b = true → listLt b c = true → listLt a c = true := by
  intro a
  induction a with
  | nil =>
    intro b c hab hbc
    cases b with
    | nil => simp [listLt] at hab
    | cons y ys =>
      cases c with
      | nil => simp [listLt] at hbc
      | cons z zs => simp [listLt]
  | cons x xs ih =>
    intro b c hab hbc
    cases b with
    | nil => simp [listLt] at hab
    | cons y ys =>
      cases c with
      | nil => simp [listLt] at hbc
      | cons z zs =>
        simp only [listLt, charLt, charEq, Bool.or_eq_true, Bool.and_eq_true,
          decide_eq_true_eq] at hab hbc ⊢
        rcases hab with hab | ⟨hab1, hab2⟩
        · rcases hbc with hbc | ⟨hbc1, hbc2⟩
          · exact Or.inl (by omega)
          · exact Or.inl (by omega)
        · rcases hbc with hbc | ⟨hbc1, hbc2⟩
          · exact Or.inl (by omega)
          · exact Or.inr ⟨by omega, ih ys zs hab2 hbc2⟩

theorem listLt_of_lt_of_nlt : ∀ a c b : List Char,
    listLt a c = true → listLt b c = false → listLt a b = true := by
  intro a
  induction a with
  | nil =>
    intro c b hac hbc
    cases c with
    | nil => simp [listLt] at hac
    | cons z zs =>
      cases b with
      | nil => simp [listLt] at hbc
      | cons y ys => simp [listLt]
  | cons x xs ih =>
    intro c b hac hbc
    cases c with
    | nil => simp [listLt] at hac
    | cons z zs =>
      cases b with
      | nil => simp [listLt] at hbc
      | cons y ys =>
        simp only [listLt, charLt, charEq, Bool.or_eq_true, Bool.and_eq_true,
          decide_eq_true_eq, Bool.or_eq_false_iff, Bool.and_eq_false_iff,
          decide_eq_false_iff_not] at hac hbc ⊢
        obtain ⟨hb1, hb2⟩ := hbc
        rcases hac with hac | ⟨hac1, hac2⟩
        · exact Or.inl (by omega)
        · by_cases hyz : y.toNat = z.toNat
          · rcases hb2 with hb2 | hb2
            · exact absurd hyz hb2
            · exact Or.inr ⟨by omega, ih zs ys hac2 hb2⟩
          · exact Or.inl (by omega)

theorem pyStrLt_irrefl (a : String) : pyStrLt a a = false :=
  listLt_irrefl a.data

theorem pyStrLt_trans (a b c : String) :
    pyStrLt a b = true → pyStrLt b c = true → pyStrLt a c = true :=
  listLt_trans a.data b.data c.data

theorem pyStrLt_of_lt_of_nlt (a c b : String) :
    pyStrLt a c = true → pyStrLt b c = false → pyStrLt a b = true :=
  listLt_of_lt_of_nlt a.data c.data b.data

theorem pyMinKeyDate_cons (x i : Incident) (xs : List Incident) :
    pyMinKeyDate x (i :: xs) =
      pyMinKeyDate (if pyStrLt i.date x.date then i else x) xs := rfl

theorem pyMinKeyDate_mem : ∀ (xs : List Incident) (x : Incident),
    pyMinKeyDate x xs ∈ x :: xs := by
  intro xs
  induction xs with
  | nil => intro x; simp [pyMinKeyDate]
  | cons i xs ih =>
    intro x
    rw [pyMinKeyDate_cons]
    rcases List.mem_cons.mp (ih (if pyStrLt i.date x.date then i else x)) with h | h
    · rw [h]
      by_cases hlt : pyStrLt i.date x.date = true
      · simp [hlt]
      · simp [hlt]
    · exact List.mem_cons_of_mem _ (List.mem_cons_of_mem _ h)

theorem pyMinKeyDate_le : ∀ (xs : List Incident) (x : Incident),
    ∀ j ∈ x :: xs, pyStrLt j.date (pyMinKeyDate x xs).date = false := by
  intro xs
  induction xs with
  | nil =>
    intro x j hj
    rw [List.mem_singleton.mp hj]
    exact pyStrLt_irrefl _
  | cons i xs ih =>
    intro x j hj
    rw [pyMinKeyDate_cons]
    by_cases hlt : pyStrLt i.date x.date = true
    · rw [if_pos hlt]
      rcases List.mem_cons.mp hj with rfl | hj2
      · cases hxm : pyStrLt j.date (pyMinKeyDate i xs).date with
        | false => rfl
        | true =>
          have hi := ih i i (List.mem_cons_self i xs)
          exact absurd (pyStrLt_trans i.date j.date _ hlt hxm) (by simp [hi])
      · rcases List.mem_cons.mp hj2 with rfl | hj3
        · exact ih j j (List.mem_cons_self j xs)
        · exact ih i j (List.mem_cons_of_mem i hj3)
    · rw [if_neg hlt]
      have hlt2 : pyStrLt i.date x.date = false := by
        cases h2 : pyStrLt i.date x.date with
        | false => rfl
        | true => exact absurd h2 hlt
      rcases List.mem_cons.mp hj with rfl | hj2
      · exact ih j j (List.mem_cons_self j xs)
      · rcases List.mem_cons.mp hj2 with rfl | hj3
        · cases hxm : pyStrLt j.date (pyMinKeyDate x xs).date with
          | false => rfl
          | true =>
            have hx := ih x x (List.mem_cons_self x xs)
            exact absurd (pyStrLt_of_lt_of_nlt j.date _ x.date hxm hx) (by simp [hlt2])
        · exact ih x j (List.mem_cons_of_mem x hj3)

theorem pyMaxKeyDate_cons (x i : Incident) (xs : List Incident) :
    pyMaxKeyDate x (i :: xs) =
      pyMaxKeyDate (if pyStrLt x.date i.date then i else x) xs := rfl

theorem pyMaxKeyDate_mem : ∀ (xs : List Incident) (x : Incident),
    pyMaxKeyDate x xs ∈ x :: xs := by
  intro xs
  induction xs with
  | nil => intro x; simp [pyMaxKeyDate]
  | cons i xs ih =>
    intro x
    rw [pyMaxKeyDate_cons]
    rcases List.mem_cons.mp (ih (if pyStrLt x.date i.date then i else x)) with h | h
    · rw [h]
      by_cases hlt : pyStrLt x.date i.date = true
      · simp [hlt]
      · simp [hlt]
    · exact List.mem_cons_of_mem _ (List.mem_cons_of_mem _ h)

theorem pyMaxKeyDate_ge : ∀ (xs : List Incident) (x : Incident),
    ∀ j ∈ x :: xs, pyStrLt (pyMaxKeyDate x xs).date j.date = false := by
  intro xs
  induction xs with
  | nil =>
    intro x j hj
    rw [List.mem_singleton.mp hj]
    exact pyStrLt_irrefl _
  | cons i xs ih =>
    intro x j hj
    rw [pyMaxKeyDate_cons]
    by_cases hlt : pyStrLt x.date i.date = true
    · rw [if_pos hlt]
      rcases List.mem_cons.mp hj with rfl | hj2
      · cases hxm : pyStrLt (pyMaxKeyDate i xs).date j.date with
        | false => rfl
        | true =>
          have hi := ih i i (List.mem_cons_self i xs)
          exact absurd (pyStrLt_trans _ j.date i.date hxm hlt) (by simp [hi])
      · rcases List.mem_cons.mp hj2 with rfl | hj3
        · exact ih j j (List.mem_cons_self j xs)
        · exact ih i j (List.mem_cons_of_mem i hj3)
    · rw [if_neg hlt]
      have hlt2 : pyStrLt x.date i.date = false := by
        cases h2 : pyStrLt x.date i.date with
        | false => rfl
        | true => exact absurd h2 hlt
      rcases List.mem_cons.mp hj with rfl | hj2
      · exact ih j j (List.mem_cons_self j xs)
      · rcases List.mem_cons.mp hj2 with rfl | hj3
        · cases hxm : pyStrLt (pyMaxKeyDate x xs).date j.date with
          | false => rfl
          | true =>
            have hx := ih x x (List.mem_cons_self x xs)
            exact absurd (pyStrLt_of_lt_of_nlt _ j.date x.date hxm hlt2) (by simp [hx])
        · exact ih x j (List.mem_cons_of_mem x hj3)

/-- C5: get_first_incident and get_last_incident return an incident of
the list whose date is the lexicographic minimum and maximum
respectively, the absent sentinel on an empty list, and on three
incidents dated 2024-01-01, 2024-03-01, 2024-02-01 held in any order
they return the January and March incidents. -/
theorem C5_first_last_incident :
    (∀ e : EntityIdentity,
      (e.incidents = [] → e.get_first_incident = none ∧ e.get_last_incident = none) ∧
      (∀ i, e.get_first_incident = some i →
        i ∈ e.incidents ∧ ∀ j ∈ e.incidents, pyStrLe i.date j.date = true) ∧
      (∀ i, e.get_last_incident = some i →
        i ∈ e.incidents ∧ ∀ j ∈ e.incidents, pyStrLe j.date i.date = true) ∧
      (e.incidents ≠ [] →
        (e.get_first_incident).isSome = true ∧ (e.get_last_incident).isSome = true)) ∧
    (∀ l : List Incident, l.Perm [janInc, marInc, febInc] →
      (EntityIdentity.mk "x" l).get_first_incident = some janInc ∧
      (EntityIdentity.mk "x" l).get_last_incident = some marInc) := by
  constructor
  · intro e
    refine ⟨?_, ?_, ?_, ?_⟩
    · intro h
      simp [EntityIdentity.get_first_incident, EntityIdentity.get_last_incident, h]
    · intro i hi
      cases hl : e.incidents with
      | nil => simp [EntityIdentity.get_first_incident, hl] at hi
      | cons x xs =>
        simp only [EntityIdentity.get_first_incident, hl, Option.some.injEq] at hi
        subst hi
        refine ⟨pyMinKeyDate_mem xs x, ?_⟩
        intro j hj
        unfold pyStrLe
        rw [pyMinKeyDate_le xs x j hj]
        rfl
    · intro i hi
      cases hl : e.incidents with
      | nil => simp [EntityIdentity.get_last_incident, hl] at hi
      | cons x xs =>
        simp only [EntityIdentity.get_last_incident, hl, Option.some.injEq] at hi
        subst hi
        refine ⟨pyMaxKeyDate_mem xs x, ?_⟩
        intro j hj
        unfold pyStrLe
        rw [pyMaxKeyDate_ge xs x j hj]
        rfl
    · intro h
      cases hl : e.incidents with
      | nil => exact absurd hl h
      | cons x xs =>
        simp [EntityIdentity.get_first_incident, EntityIdentity.get_last_incident, hl]
  · intro l hperm
    have hlen : l.length = 3 := by simpa using hperm.length_eq
    cases l with
    | nil => simp at hlen
    | cons x xs =>
      constructor
      · show some (pyMinKeyDate x xs) = some janInc
        have hmem3 : pyMinKeyDate x xs ∈ [janInc, marInc, febInc] :=
          hperm.mem_iff.mp (pyMinKeyDate_mem xs x)
        have hjan : janInc ∈ x :: xs := hperm.mem_iff.mpr (by simp)
        have hle := pyMinKeyDate_le xs x janInc hjan
        simp only [List.mem_cons, List.mem_singleton, List.not_mem_nil, or_false] at hmem3
        rcases hmem3 with h | h | h
        · rw [h]
        · rw [h] at hle
          exact absurd hle (by decide)
        · rw [h] at hle
          exact absurd hle (by decide)
      · show some (pyMaxKeyDate x xs) = some marInc
        have hmem3 : pyMaxKeyDate x xs ∈ [janInc, marInc, febInc] :=
          hperm.mem_iff.mp (pyMaxKeyDate_mem xs x)
        have hmar : marInc ∈ x :: xs := hperm.mem_iff.mpr (by simp)
        have hge := pyMaxKeyDate_ge xs x marInc hmar
        simp only [List.mem_cons, List.mem_singleton, List.not_mem_nil, or_false] at hmem3
        rcases hmem3 with h | h | h
        · rw [h] at hge
          exact absurd hge (by decide)
        · rw [h]
        · rw [h] at hge
          exact absurd hge (by decide)

/-- Witness for C5 at a concrete add order that differs from both the
date order and the listed order. -/
theorem C5_first_last_incident_witness :
    (EntityIdentity.mk "x" [marInc, febInc, janInc]).get_first_incident = some janInc ∧
    (EntityIdentity.mk "x" [marInc, febInc, janInc]).get_last_incident = some marInc :=
  C5_first_last_incident.2 [marInc, febInc, janInc] (by decide)

/-- C6: validate_fact returns true with an empty message exactly when
no pattern of the fixed forbidden list matches the lowercased fact,
otherwise false with a message citing the first matching pattern
(short-circuit on first match); on the two concrete sentences it
returns the claimed results, the second citing the first matching
pattern in list order. -/
theorem C6_validate_fact_characterization (s : String) :
    ((validate_fact s).1 = true ↔ ∀ p ∈ FORBIDDEN_PATTERNS, patSearch p (pyLower s) = false) ∧
    ((validate_fact s).1 = true → validate_fact s = (true, "")) ∧
    (∀ p, FORBIDDEN_PATTERNS.find? (fun q => patSearch q (pyLower s)) = some p →
      validate_fact s = (false, "Fact contains forbidden pattern: " ++ p.src)) ∧
    validate_fact "The meeting occurred at 3pm" = (true, "") ∧
    validate_fact "This will happen tomorrow" =
      (false, "Fact contains forbidden pattern: " ++ "\\bwill\\s+(do|be|happen|occur)") := by
  refine ⟨?_, ?_, ?_, by decide, by decide⟩
  · unfold validate_fact
    cases hf : FORBIDDEN_PATTERNS.find? (fun p => patSearch p (pyLower s)) with
    | none =>
      constructor
      · intro _ p hp
        have := List.find?_eq_none.mp hf p hp
        simpa using this
      · intro _
        rfl
    | some p =>
      constructor
      · intro h
        exact absurd h (by simp)
      · intro hall
        have hp := List.find?_some hf
        have hmem := List.mem_of_find?_eq_some hf
        rw [hall p hmem] at hp
        exact absurd hp (by simp)
  · intro h
    unfold validate_fact at h ⊢
    cases hf : FORBIDDEN_PATTERNS.find? (fun p => patSearch p (pyLower s)) with
    | none => rfl
    | some p =>
      rw [hf] at h
      exact absurd h (by simp)
  · intro p hp
    unfold validate_fact
    rw [hp]

/-- Witness for C6: the clean concrete sentence satisfies the
no-pattern-matches side, so validate_fact reports it valid. -/
theorem C6_validate_fact_characterization_witness :
    (validate_fact "The meeting occurred at 3pm").1 = true :=
  (C6_validate_fact_characterization "The meeting occurred at 3pm").1.mpr (by decide)

theorem findFS_addParticipant (eid2 d eid : String) (m : List EntitySummary) :
    ((addParticipant eid2 d m).find? (fun s => s.entity_id == eid)).map
        (fun s => s.first_seen) =
      if eid2 = eid then
        some (((m.find? (fun s => s.entity_id == eid)).map (fun s => s.first_seen)).getD d)
      else (m.find? (fun s => s.entity_id == eid)).map (fun s => s.first_seen) := by
  induction m with
  | nil =>
    by_cases h : eid2 = eid
    · simp [addParticipant, List.find?, h]
    · have hb : (eid2 == eid) = false := beq_eq_false_iff_ne.mpr h
      simp [addParticipant, List.find?, hb, h]
  | cons s rest ih =>
    by_cases hs : s.entity_id = eid2
    · simp only [addParticipant, if_pos hs]
      by_cases h : eid2 = eid
      · subst h
        simp [List.find?, hs]
      · have hne : ¬ s.entity_id = eid := fun hc => h (hs.symm.trans hc)
        have hb : (s.entity_id == eid) = false := beq_eq_false_iff_ne.mpr hne
        simp [List.find?, hb, h]
    · simp only [addParticipant, if_neg hs]
      by_cases hmatch : s.entity_id = eid
      · have h : eid2 ≠ eid := fun he => hs (hmatch.trans he.symm)
        have hb : (s.entity_id == eid) = true := beq_iff_eq.mpr hmatch
        simp [List.find?, hb, h]
      · have hb : (s.entity_id == eid) = false := beq_eq_false_iff_ne.mpr hmatch
        simp only [List.find?, hb]
        exact ih

theorem findFS_partsFold (d eid : String) : ∀ (ps : List String) (m : List EntitySummary),
    (((ps.foldl (fun m2 e2 => addParticipant e2 d m2) m).find?
        (fun s => s.entity_id == eid)).map (fun s => s.first_seen)) =
      (match (m.find? (fun s => s.entity_id == eid)).map (fun s => s.first_seen) with
       | some x => some x
       | none => if ps.contains eid then some d else none) := by
  intro ps
  induction ps with
  | nil =>
    intro m
    cases h : (m.find? (fun s => s.entity_id == eid)).map (fun s => s.first_seen) <;>
      simp [h]
  | cons p ps ih =>
    intro m
    simp only [List.foldl_cons]
    rw [ih (addParticipant p d m), findFS_addParticipant p d eid m]
    by_cases hp : p = eid
    · rw [if_pos hp]
      cases hm : (m.find? (fun s => s.entity_id == eid)).map (fun s => s.first_seen) with
      | some x => simp [hm, hp]
      | none => simp [hm, hp]
    · rw [if_neg hp]
      cases hm : (m.find? (fun s => s.entity_id == eid)).map (fun s => s.first_seen) with
      | some x => simp [hm]
      | none =>
        have hp2 : ¬ eid = p := fun he => hp he.symm
        simp [hm, hp2]

theorem findFS_incsFold (eid : String) : ∀ (incs : List Incident) (m : List EntitySummary),
    (((incs.foldl
          (fun m i => i.participants.foldl (fun m2 e2 => addParticipant e2 i.date m2) m)
          m).find? (fun s => s.entity_id == eid)).map (fun s => s.first_seen)) =
      (match (m.find? (fun s => s.entity_id == eid)).map (fun s => s.first_seen) with
       | some x => some x
       | none => (incs.find? (fun i => i.participants.contains eid)).map (fun i => i.date)) := by
  intro incs
  induction incs with
  | nil =>
    intro m
    cases h : (m.find? (fun s => s.entity_id == eid)).map (fun s => s.first_seen) <;>
      simp [h]
  | cons i incs ih =>
    intro m
    simp only [List.foldl_cons]
    rw [ih _, findFS_partsFold i.date eid i.participants m]
    cases hm : (m.find? (fun s => s.entity_id == eid)).map (fun s => s.first_seen) with
    | some x => simp [hm]
    | none =>
      simp only [hm]
      by_cases hmem : eid ∈ i.participants
      · simp [List.find?, hmem]
      · simp [List.find?, hmem]

/-- C2: create_system_snapshot folds over the system-filtered ledger
in order and records, for each participant entity, first_seen as the
date of the first matching incident in that iteration order; over the
two-incident example ledger (dates 2024-01-02 then 2024-01-01, in that
append order) the entry for x has first_seen 2024-01-02, not the
chronological minimum. -/
theorem C2_system_snapshot_first_seen :
    (∀ (g : GenState) (system now eid : String),
      (((create_system_snapshot g system now).1.entities.find?
          (fun s => s.entity_id == eid)).map (fun s => s.first_seen)) =
        ((g.incident_log.get_by_system system).find?
            (fun i => i.participants.contains eid)).map (fun i => i.date)) ∧
    (((create_system_snapshot (initGen ⟨[exA1, exA2]⟩) "A" "now").1.entities.find?
        (fun s => s.entity_id == "x")).map (fun s => s.first_seen)) = some "2024-01-02" := by
  constructor
  · intro g system now eid
    simp only [create_system_snapshot]
    rw [findFS_incsFold eid (g.incident_log.get_by_system system) []]
    simp [List.find?]
  · decide

theorem find_dictInsert (k : String) (v : MeaningEntry) :
    ∀ m, (dictInsert k v m).find? (fun kv => kv.1 == k) = some (k, v) := by
  intro m
  induction m with
  | nil => simp [dictInsert, List.find?]
  | cons kv rest ih =>
    by_cases h : kv.1 = k
    · simp [dictInsert, h, List.find?]
    · have hb : (kv.1 == k) = false := beq_eq_false_iff_ne.mpr h
      simp [dictInsert, h, List.find?, hb, ih]

/-- C10: the source-mismatch branch of MeaningLayer.add_entry is
unreachable through MeaningOverlay.add_meaning: the overlay starts
with one layer per source keyed by its own source field, that
invariant is preserved, and under it add_meaning always succeeds and
stores the entry in the layer keyed by its source under its term. -/
theorem C10_add_meaning_total :
    WFOverlay initOverlay ∧
    (∀ (o : MeaningOverlay) (e : MeaningEntry), WFOverlay o →
      o.add_meaning e = Except.ok (overlayInsert o e) ∧
      WFOverlay (overlayInsert o e) ∧
      ((overlayInsert o e).layers e.source).get_entry e.term = some e) := by
  constructor
  · intro s
    rfl
  · intro o e hwf
    have hsrc : (o.layers e.source).source = e.source := hwf e.source
    refine ⟨?_, ?_, ?_⟩
    · simp [MeaningOverlay.add_meaning, MeaningLayer.add_entry, hsrc, overlayInsert]
    · intro s
      by_cases h : s = e.source
      · simp [overlayInsert, h, hsrc]
      · simp [overlayInsert, h, hwf s]
    · simp [overlayInsert, MeaningLayer.get_entry, find_dictInsert]

/-- Witness for C10: adding a concrete entry to the freshly
initialized overlay succeeds with the expected resulting overlay. -/
theorem C10_add_meaning_total_witness :
    initOverlay.add_meaning sampleEntry = Except.ok (overlayInsert initOverlay sampleEntry) :=
  (C10_add_meaning_total.2 initOverlay sampleEntry (fun _ => rfl)).1
